import Mathlib

/-!
# Tasks-manager-server: the HTTP layer of `src/index.js` over its `tasks` table

The development embeds the Express application of `src/index.js`:

* the JavaScript values a request body field can hold (any JSON value, or absent) and
  the operators the handlers apply to them (`?.trim()`, `||`, `!== undefined`);
* the SQL fragment the driver substitutes for a bound value;
* the `tasks` table declared by `createTableQuery` and the SQL statements the handlers
  issue against it;
* the seven task handlers, the greeting handler, the error middleware and the 404
  fallback;
* the middleware stack in registration order, and the dispatch of a request over it,
  the error path through `next(err)` included.

Conventions of the store model.  The database engine is an external collaborator; it is
modelled as far as the schema text of `createTableQuery` and the statements' text fix it:

* a statement fails with the connection's error while the connection is broken;
* a statement whose text is not well formed once the values are substituted fails;
* a column admits exactly the values of its declared type and stores them unchanged
  (`NOT NULL`, `VARCHAR(255)`, `TEXT`, `ENUM('pending','completed')`, strict SQL mode);
  a value the column does not admit makes the statement fail and leaves the table as
  it was.  Conversions the engine would apply (a numeral or boolean written to a text or
  enumeration column, another spelling of an enumeration member) are outside the model:
  such a value counts as not admitted;
* `DEFAULT CURRENT_TIMESTAMP` reads the clock at insertion, and
  `ON UPDATE CURRENT_TIMESTAMP` reads it when an `UPDATE` changes some other column of
  the row; a row that an `UPDATE` rewrites with its current values keeps `updated_at`;
* `affectedRows` of an `UPDATE` counts the rows the `WHERE` clause found (the driver
  connects with the found-rows flag), of a `DELETE` the rows removed.

The clock reading (`now`, in seconds) is an input of every request.
-/

namespace TasksServer

/-! ## JavaScript values of a body field -/

/-- A field of `req.body` as the handlers see it: absent, or any JSON value (`null`, a
boolean, a finite number, a string, an array, an object). -/
inductive JVal where
  | undefined
  | null
  | bool (b : Bool)
  | num (q : ℚ)
  | str (s : String)
  | arr (items : List JVal)
  | obj (fields : List (String × JVal))
deriving Repr

/-- The code points `String.prototype.trim` strips: WhiteSpace and LineTerminator. -/
def isJsWhiteSpace (c : Char) : Bool :=
  let n := c.toNat
  n == 0x09 || n == 0x0A || n == 0x0B || n == 0x0C || n == 0x0D || n == 0x20 ||
  n == 0xA0 || n == 0x1680 || (0x2000 ≤ n && n ≤ 0x200A) || n == 0x2028 ||
  n == 0x2029 || n == 0x202F || n == 0x205F || n == 0x3000 || n == 0xFEFF

/-- `s.trim()`. -/
def trim (s : String) : String :=
  ⟨((s.data.dropWhile isJsWhiteSpace).reverse.dropWhile isJsWhiteSpace).reverse⟩

/-- The fragment the driver writes in place of a `?` (`SqlString.escape`), as the engine
reads it: `NULL`, `true`/`false`, a numeral, a quoted string, or text that is no single
value (nothing at all, several comma-separated items, a parenthesised row of other than
one value, `key = value` pairs). -/
inductive Sql where
  | null
  | bool (b : Bool)
  | number (q : ℚ)
  | text (s : String)
  | malformed
deriving DecidableEq, Repr

namespace JVal

/-- JavaScript truthiness: `undefined`, `null`, `false`, `0` and `''` are falsy; every
array and object is truthy. -/
def truthy : JVal → Bool
  | .undefined => false
  | .null => false
  | .bool b => b
  | .num q => decide (q ≠ 0)
  | .str s => !(s.data.isEmpty)
  | .arr _ => true
  | .obj _ => true

/-- `a || b`. -/
def or (a b : JVal) : JVal := if a.truthy then a else b

/-- `v?.trim()`: `undefined` when `v` is nullish, the trimmed string when `v` is a string;
any other value has no `trim` method and the call throws the `TypeError` whose message is
given. -/
def optTrim (typeError : String) : JVal → Except String JVal
  | .undefined => .ok .undefined
  | .null => .ok .undefined
  | .str s => .ok (.str (trim s))
  | _ => .error typeError

/-- `SqlString.escape(v, true)`, the form of an array item: a nested array is put in
parentheses (one item in parentheses is that item), an object is written as the quoted
string of its `toString()`. -/
def toSqlItem : JVal → Sql
  | .undefined => .null
  | .null => .null
  | .bool b => .bool b
  | .num q => .number q
  | .str s => .text s
  | .arr [x] => x.toSqlItem
  | .arr _ => .malformed
  | .obj _ => .text "[object Object]"

/-- `SqlString.escape(v)`, the fragment written for a bound value: `undefined` and `null`
become `NULL`; an array becomes the comma-separated list of its items; an object becomes
`key = value` pairs. -/
def toSql : JVal → Sql
  | .arr [x] => x.toSqlItem
  | .arr _ => .malformed
  | .obj _ => .malformed
  | v => v.toSqlItem

/-- The JavaScript value of a nullable text column of a result row. -/
def ofSql : Option String → JVal
  | some s => .str s
  | none => .null

end JVal

/-- The fragment for a nullable text value: `NULL` or the quoted string. -/
def Sql.ofText : Option String → Sql
  | some s => .text s
  | none => .null

/-! ## The `tasks` table -/

/-- A row of `tasks` (`createTableQuery`): `title` is `NOT NULL`; `description` and
`status` are nullable; the timestamps are clock readings in seconds. -/
structure Task where
  id : Nat
  title : String
  description : Option String
  status : Option String
  created_at : Nat
  updated_at : Nat
deriving DecidableEq, Repr

/-- A path segment: a decimal numeral (by its value) or any other text. -/
inductive Seg where
  | num (n : Nat)
  | word (s : String)
deriving DecidableEq, Repr

/-- The store behind `db`: the rows of `tasks` in storage order, the table's
`AUTO_INCREMENT` counter, and the error of the connection when it is broken. -/
structure Db where
  tasks : List Task
  autoIncrement : Nat
  connError : Option String
deriving DecidableEq, Repr

/-- The table right after `CREATE TABLE IF NOT EXISTS` on a fresh database. -/
def Db.empty : Db := { tasks := [], autoIncrement := 1, connError := none }

/-- `WHERE id = ?` on one row.  A numeral compares by value; text that is not a numeral
compares as `0`, which no `AUTO_INCREMENT` id equals, and is taken to match no row. -/
def whereId (taskId : Seg) (t : Task) : Bool :=
  match taskId with
  | .num n => t.id == n
  | .word _ => false

/-- A statement parses only if each fragment written for a `?` is a single value. -/
def wellFormed (fragments : List Sql) : Bool :=
  fragments.all fun f => f != .malformed

/-- `title VARCHAR(255) NOT NULL`. -/
def checkTitle : Sql → Except String String
  | .null => .error "Column 'title' cannot be null"
  | .text s =>
    if s.length ≤ 255 then .ok s else .error "Data too long for column 'title' at row 1"
  | _ => .error "Incorrect string value for column 'title' at row 1"

/-- `description TEXT`: nullable, at most 65535 bytes. -/
def checkDescription : Sql → Except String (Option String)
  | .null => .ok none
  | .text s =>
    if s.utf8ByteSize ≤ 65535 then .ok (some s)
    else .error "Data too long for column 'description' at row 1"
  | _ => .error "Incorrect string value for column 'description' at row 1"

/-- `status ENUM('pending', 'completed')`: nullable, otherwise one of the two members. -/
def checkStatus : Sql → Except String (Option String)
  | .null => .ok none
  | .text s =>
    if s = "pending" ∨ s = "completed" then .ok (some s)
    else .error "Data truncated for column 'status' at row 1"
  | _ => .error "Data truncated for column 'status' at row 1"

/-- `ORDER BY created_at DESC`, one insertion step: `t` goes before the first row that
is not newer than it. -/
def insertDesc (t : Task) : List Task → List Task
  | [] => [t]
  | r :: rs => if r.created_at ≤ t.created_at then t :: r :: rs else r :: insertDesc t rs

/-- `ORDER BY created_at DESC`. -/
def orderByCreatedAtDesc : List Task → List Task
  | [] => []
  | t :: ts => insertDesc t (orderByCreatedAtDesc ts)

/-- An `UPDATE` of one row to the given column values: `updated_at` takes the clock
reading exactly when some column changes (`ON UPDATE CURRENT_TIMESTAMP`). -/
def Task.assign (t : Task) (title : String) (description status : Option String)
    (now : Nat) : Task :=
  if t.title = title ∧ t.description = description ∧ t.status = status then t
  else { t with title := title, description := description, status := status,
                updated_at := now }

namespace Db

/-- `SELECT * FROM tasks ORDER BY created_at DESC`. -/
def selectAll (db : Db) : Except String (List Task) :=
  match db.connError with
  | some e => .error e
  | none => .ok (orderByCreatedAtDesc db.tasks)

/-- `SELECT * FROM tasks WHERE id = ?`. -/
def selectById (db : Db) (taskId : Seg) : Except String (List Task) :=
  match db.connError with
  | some e => .error e
  | none => .ok (db.tasks.filter (whereId taskId))

/-- `INSERT INTO tasks (title,description,status) VALUES (?,?,?)`: the new store and
`insertId`.  The row takes the next `AUTO_INCREMENT` id (an `INT` primary key) and the
clock reading for both timestamps. -/
def insert (db : Db) (title description status : Sql) (now : Nat) :
    Except String (Db × Nat) :=
  match db.connError with
  | some e => .error e
  | none =>
    if wellFormed [title, description, status] then
      match checkTitle title with
      | .error e => .error e
      | .ok t =>
        match checkDescription description with
        | .error e => .error e
        | .ok d =>
          match checkStatus status with
          | .error e => .error e
          | .ok s =>
            if 2147483647 < db.autoIncrement then
              .error "Out of range value for column 'id'"
            else if db.tasks.any (fun r => r.id == db.autoIncrement) then
              .error "Duplicate entry for key 'PRIMARY'"
            else
              .ok ({ db with
                      tasks := db.tasks ++ [{ id := db.autoIncrement, title := t,
                                              description := d, status := s,
                                              created_at := now, updated_at := now }],
                      autoIncrement := db.autoIncrement + 1 }, db.autoIncrement)
    else .error "You have an error in your SQL syntax"

/-- `UPDATE tasks SET title = ?, description = ?, status = ? WHERE id = ?`: the new store
and `affectedRows`.  The values are checked when there is a row to write them to. -/
def update (db : Db) (title description status : Sql) (taskId : Seg)
    (now : Nat) : Except String (Db × Nat) :=
  match db.connError with
  | some e => .error e
  | none =>
    if wellFormed [title, description, status] then
      if db.tasks.any (whereId taskId) then
        match checkTitle title with
        | .error e => .error e
        | .ok t =>
          match checkDescription description with
          | .error e => .error e
          | .ok d =>
            match checkStatus status with
            | .error e => .error e
            | .ok s =>
              .ok ({ db with tasks := db.tasks.map fun r =>
                        if whereId taskId r then r.assign t d s now else r },
                   (db.tasks.filter (whereId taskId)).length)
      else .ok (db, 0)
    else .error "You have an error in your SQL syntax"

/-- `UPDATE tasks SET status = "<member>" WHERE id = ?` for a member of the enumeration:
the new store and `affectedRows`. -/
def updateStatus (db : Db) (member : String) (taskId : Seg) (now : Nat) :
    Except String (Db × Nat) :=
  match db.connError with
  | some e => .error e
  | none =>
    .ok ({ db with tasks := db.tasks.map fun r =>
              if whereId taskId r then r.assign r.title r.description (some member) now
              else r },
         (db.tasks.filter (whereId taskId)).length)

/-- `DELETE FROM tasks WHERE id = ?`: the new store and `affectedRows`. -/
def delete (db : Db) (taskId : Seg) : Except String (Db × Nat) :=
  match db.connError with
  | some e => .error e
  | none =>
    .ok ({ db with tasks := db.tasks.filter fun r => !(whereId taskId r) },
         (db.tasks.filter (whereId taskId)).length)

end Db

/-! ## Requests and responses -/

/-- The parsed JSON body of a request, as far as the handlers read it. -/
structure ReqBody where
  title : JVal
  description : JVal
  status : JVal
deriving Repr

/-- What a request carries for `express.json()`: a body the parser rejects (with the
parser's error message), no JSON body at all (`req.body` stays `undefined`), or a JSON
object or array (an array, or an object without the three keys, has the three fields
absent).  An Express version that sets `req.body` to `{}` for a request without body
sees that request as `parsed` with the three fields absent. -/
inductive Payload where
  | unparsable (message : String)
  | absent
  | parsed (fields : ReqBody)
deriving Repr

/-- The JSON (or text) a handler sends. -/
inductive Body where
  /-- `res.send(text)`. -/
  | text (text : String)
  /-- `{ error, details }`; `details` is absent on the two not-found answers. -/
  | error (error : String) (details : Option String)
  /-- `{ message }`. -/
  | message (message : String)
  /-- `{ message, data }` with a result row. -/
  | task (message : String) (data : Task)
  /-- `{ message, data }` with the result rows. -/
  | tasks (message : String) (data : List Task)
  /-- `{ message, data: { id, title, description, status } }` of `POST /tasks`. -/
  | created (message : String) (id : Nat) (title description status : JVal)
  /-- The answer of Express itself when the stack is exhausted. -/
  | unhandled
deriving Repr

/-- A response: status code and body. -/
structure Response where
  status : Nat
  body : Body
deriving Repr

/-! ## The handlers -/

/-- `app.get('/tasks', ...)`. -/
def getTasks (db : Db) : Db × Response :=
  match db.selectAll with
  | .error err => (db, ⟨500, .error "Failed to fetch tasks" (some err)⟩)
  | .ok results => (db, ⟨200, .tasks "Tasks fetched successfully" results⟩)

/-- `app.get('/tasks/:id', ...)`. -/
def getTaskById (taskId : Seg) (db : Db) : Db × Response :=
  match db.selectById taskId with
  | .error err => (db, ⟨500, .error "Failed to fetch task" (some err)⟩)
  | .ok [] => (db, ⟨404, .error "Task not found" none⟩)
  | .ok (row :: _) => (db, ⟨200, .task "Task fetched successfully" row⟩)

/-- `const { title, description, status } = req.body`: throws when `req.body` is
`undefined`. -/
def destructure (body : Option ReqBody) : Except String ReqBody :=
  match body with
  | none =>
    .error "Cannot destructure property 'title' of 'req.body' as it is undefined."
  | some fields => .ok fields

/-- The `values` of `app.post('/tasks', ...)`:
`[title?.trim(), description?.trim() || null, status || 'pending']`; the two `trim` calls
may throw. -/
def postValues (body : ReqBody) : Except String (JVal × JVal × JVal) :=
  match body.title.optTrim "title?.trim is not a function" with
  | .error e => .error e
  | .ok title =>
    match body.description.optTrim "description?.trim is not a function" with
    | .error e => .error e
    | .ok description => .ok (title, description.or .null, body.status.or (.str "pending"))

/-- `app.post('/tasks', ...)` from `db.query` on, for the destructured body and the
`values`: the statement and its callback. -/
def postTasksQuery (now : Nat) (body : ReqBody) (values : JVal × JVal × JVal) (db : Db) :
    Db × Response :=
  match db.insert values.1.toSql values.2.1.toSql values.2.2.toSql now with
  | .error err => (db, ⟨500, .error "Failed to create task" (some err)⟩)
  | .ok (db', insertId) =>
    (db', ⟨201, .created "Task created successfully" insertId body.title
              (body.description.or .null) (body.status.or (.str "pending"))⟩)

/-- `app.post('/tasks', ...)`: an answer, or the error thrown before one is sent. -/
def postTasks (now : Nat) (body : Option ReqBody) (db : Db) : Except String (Db × Response) :=
  match destructure body with
  | .error e => .error e
  | .ok body =>
    match postValues body with
    | .error e => .error e
    | .ok values => .ok (postTasksQuery now body values db)

/-- The first three `values` of `app.put('/tasks/:id', ...)`, from the body and
`results[0]`. -/
def putValues (body : ReqBody) (row : Task) : JVal × JVal × JVal :=
  (body.title.or (.str row.title),
   match body.description with
   | .undefined => JVal.ofSql row.description
   | description => description,
   body.status.or (JVal.ofSql row.status))

/-- `app.put('/tasks/:id', ...)` from `db.query` on, for the destructured body: the two
statements and their callbacks. -/
def putTaskQuery (now : Nat) (taskId : Seg) (body : ReqBody) (db : Db) : Db × Response :=
  match db.selectById taskId with
  | .error err => (db, ⟨500, .error "Failed to update task" (some err)⟩)
  | .ok [] => (db, ⟨404, .error "Task not found" none⟩)
  | .ok (row :: _) =>
    let values := putValues body row
    match db.update values.1.toSql values.2.1.toSql values.2.2.toSql taskId now with
    | .error err => (db, ⟨500, .error "Failed to update task" (some err)⟩)
    | .ok (db', _) => (db', ⟨200, .message "Task updated successfully"⟩)

/-- `app.put('/tasks/:id', ...)`: an answer, or the error thrown before one is sent. -/
def putTask (now : Nat) (taskId : Seg) (body : Option ReqBody) (db : Db) :
    Except String (Db × Response) :=
  match destructure body with
  | .error e => .error e
  | .ok body => .ok (putTaskQuery now taskId body db)

/-- `app.delete('/tasks/:id', ...)`. -/
def deleteTask (taskId : Seg) (db : Db) : Db × Response :=
  match db.delete taskId with
  | .error err => (db, ⟨500, .error "Failed to delete task" (some err)⟩)
  | .ok (db', affectedRows) =>
    if affectedRows = 0 then (db', ⟨404, .error "Task not found" none⟩)
    else (db', ⟨200, .message "Task deleted successfully"⟩)

/-- `app.patch('/tasks/:id/complete', ...)`. -/
def patchComplete (now : Nat) (taskId : Seg) (db : Db) : Db × Response :=
  match db.updateStatus "completed" taskId now with
  | .error err => (db, ⟨500, .error "Failed to update task" (some err)⟩)
  | .ok (db', affectedRows) =>
    if affectedRows = 0 then (db', ⟨404, .error "Task not found" none⟩)
    else (db', ⟨200, .message "Task marked as completed"⟩)

/-- `app.patch('/tasks/:id/pending', ...)`. -/
def patchPending (now : Nat) (taskId : Seg) (db : Db) : Db × Response :=
  match db.updateStatus "pending" taskId now with
  | .error err => (db, ⟨500, .error "Failed to update task" (some err)⟩)
  | .ok (db', affectedRows) =>
    if affectedRows = 0 then (db', ⟨404, .error "Task not found" none⟩)
    else (db', ⟨200, .message "Task marked as pending"⟩)

/-- The error middleware `app.use((err, req, res, next) => ...)`. -/
def errorMiddleware (err : String) (db : Db) : Db × Response :=
  (db, ⟨500, .error "Something went wrong!" (some err)⟩)

/-- The 404 handler `app.use((req, res) => ...)`. -/
def routeNotFound (db : Db) : Db × Response :=
  (db, ⟨404, .error "Route not found" none⟩)

/-- `app.get('/', ...)`. -/
def getRoot (db : Db) : Db × Response :=
  (db, ⟨200, .text "Hello from Express!"⟩)

/-! ## The middleware stack -/

/-- The request methods the CORS policy lists. -/
inductive Method where
  | GET | POST | PUT | DELETE | PATCH
deriving DecidableEq, Repr

/-- A request: method, path segments (`/` is the empty list) and what it carries as body. -/
structure Request where
  method : Method
  path : List Seg
  body : Payload
deriving Repr

/-- What a matched route does with the clock reading, `req.body` (`none` when it is
`undefined`) and the store: it answers, or throws. -/
abbrev Action := Nat → Option ReqBody → Db → Except String (Db × Response)

/-- One registration on `app`, in the terms Express dispatches on. -/
inductive Layer where
  /-- `app.use(cors(...))`: hands every modelled request on. -/
  | cors
  /-- `app.use(express.json())`: sets `req.body` from a body that parses, leaves it
  `undefined` when there is none, and calls `next(err)` when the body does not parse. -/
  | json
  /-- `app.get/post/put/delete/patch(path, handler)`: `run path` is `none` when the
  path does not match the pattern. -/
  | route (method : Method) (run : List Seg → Option Action)
  /-- `app.use((err, req, res, next) => ...)`: entered only with an error in flight. -/
  | errorHandler
  /-- `app.use((req, res) => ...)`: matches every request and answers it. -/
  | notFound

/-- The registrations of `src/index.js`, top to bottom. -/
def app : List Layer :=
  [ .cors,
    .json,
    .route .GET fun
      | [.word "tasks"] => some fun _ _ db => .ok (getTasks db)
      | _ => none,
    .route .GET fun
      | [.word "tasks", taskId] => some fun _ _ db => .ok (getTaskById taskId db)
      | _ => none,
    .route .POST fun
      | [.word "tasks"] => some fun now body db => postTasks now body db
      | _ => none,
    .route .PUT fun
      | [.word "tasks", taskId] => some fun now body db => putTask now taskId body db
      | _ => none,
    .route .DELETE fun
      | [.word "tasks", taskId] => some fun _ _ db => .ok (deleteTask taskId db)
      | _ => none,
    .route .PATCH fun
      | [.word "tasks", taskId, .word "complete"] =>
        some fun now _ db => .ok (patchComplete now taskId db)
      | _ => none,
    .route .PATCH fun
      | [.word "tasks", taskId, .word "pending"] =>
        some fun now _ db => .ok (patchPending now taskId db)
      | _ => none,
    .errorHandler,
    .notFound,
    .route .GET fun
      | [] => some fun _ _ db => .ok (getRoot db)
      | _ => none ]

/-- Express walks the stack in registration order.  `err` is the error in flight, if any,
and `body` the current `req.body`.  Without an error the first layer that matches runs:
none of the handlers calls `next`, so its answer is the response, unless it throws, which
puts the error in flight.  With an error in flight every layer is passed over up to the
error middleware, which answers. -/
def dispatch (stack : List Layer) (err : Option String) (body : Option ReqBody)
    (now : Nat) (req : Request) (db : Db) : Db × Response :=
  match stack, err with
  | [], none => (db, ⟨404, .unhandled⟩)
  | [], some _ => (db, ⟨500, .unhandled⟩)
  | .errorHandler :: _, some e => errorMiddleware e db
  | _ :: rest, some e => dispatch rest (some e) body now req db
  | .cors :: rest, none => dispatch rest none body now req db
  | .json :: rest, none =>
    match req.body with
    | .unparsable message => dispatch rest (some message) body now req db
    | .absent => dispatch rest none body now req db
    | .parsed fields => dispatch rest none (some fields) now req db
  | .errorHandler :: rest, none => dispatch rest none body now req db
  | .notFound :: _, none => routeNotFound db
  | .route method run :: rest, none =>
    if method = req.method then
      match run req.path with
      | some action =>
        match action now body db with
        | .ok answer => answer
        | .error e => dispatch rest (some e) body now req db
      | none => dispatch rest none body now req db
    else dispatch rest none body now req db

/-- The server's answer to a request; `req.body` is `undefined` before any parser ran. -/
def handle (now : Nat) (req : Request) (db : Db) : Db × Response :=
  dispatch app none none now req db

/-! ## Reachable stores -/

/-- The stores the server can be in: the empty table, then any requests at any clock
readings, with the connection breaking or recovering in between. -/
inductive Reachable : Db → Prop where
  | empty : Reachable Db.empty
  | request (now : Nat) (req : Request) {db : Db} :
      Reachable db → Reachable (handle now req db).1
  | connection (e : Option String) {db : Db} :
      Reachable db → Reachable { db with connError := e }

/-- Every stored status is `NULL` or a member of the enumeration. -/
def StatusNullOrEnum (db : Db) : Prop :=
  ∀ t ∈ db.tasks, t.status = none ∨ t.status = some "pending" ∨ t.status = some "completed"

/-! ## Bodies with textual fields -/

/-- A field of the interface as documented: absent, `null`, or a string. -/
inductive TextField where
  | undefined
  | null
  | str (s : String)
deriving DecidableEq, Repr

/-- The value the handlers see for a textual field. -/
def TextField.toJVal : TextField → JVal
  | .undefined => .undefined
  | .null => .null
  | .str s => .str s

/-- A body whose three fields are absent, `null` or strings. -/
structure TextBody where
  title : TextField
  description : TextField
  status : TextField
deriving DecidableEq, Repr

/-- The body the handlers see. -/
def TextBody.toReqBody (b : TextBody) : ReqBody :=
  ⟨b.title.toJVal, b.description.toJVal, b.status.toJVal⟩

/-! ## The contract's wording of the Update merge and of the error mapping -/

/-- The title an Update is to write: the supplied title if it is present and non-empty,
otherwise the existing one. -/
def specTitle (supplied : TextField) (existing : String) : String :=
  match supplied with
  | .str s => if s = "" then existing else s
  | _ => existing

/-- The description an Update is to write: the supplied one whenever the field is present
(an explicit null or empty string as given), otherwise the existing one. -/
def specDescription (supplied : TextField) (existing : Option String) : Option String :=
  match supplied with
  | .undefined => existing
  | .null => none
  | .str s => some s

/-- The status an Update is to write: the supplied status if it is present and non-empty,
otherwise the existing one. -/
def specStatus (supplied : TextField) (existing : Option String) : Option String :=
  match supplied with
  | .str s => if s = "" then existing else some s
  | _ => existing

/-- The `details` of an error body, when it has one. -/
def Response.details (r : Response) : Option String :=
  match r.body with
  | .error _ details => details
  | _ => none

/-- The error mapping of an id-scoped operation, for a response `r`: 404 with
`Task not found` exactly when `noRow` (the store query succeeded and matched no row), 500
with the store error's message as details exactly when a store query `fails` with that
message, and 200 in all remaining cases. -/
def ErrorMapping (r : Response) (noRow : Prop) (fails : String → Prop) : Prop :=
  (r = ⟨404, .error "Task not found" none⟩ ↔ noRow) ∧
  (∀ m, (r.status = 500 ∧ r.details = some m) ↔ fails m) ∧
  (r.status = 200 ↔ ¬ noRow ∧ ¬ ∃ m, fails m)

/-! ## What a statement that succeeds has done -/

theorem checkTitle_ok {v : Sql} {t : String} (h : checkTitle v = .ok t) :
    v = .text t := by
  cases v with
  | text s =>
    simp only [checkTitle] at h
    split_ifs at h
    cases h
    rfl
  | null => simp [checkTitle] at h
  | bool b => simp [checkTitle] at h
  | number q => simp [checkTitle] at h
  | malformed => simp [checkTitle] at h

theorem checkDescription_ok {v : Sql} {d : Option String} (h : checkDescription v = .ok d) :
    v = Sql.ofText d := by
  cases v with
  | null => simp only [checkDescription] at h; cases h; rfl
  | text s =>
    simp only [checkDescription] at h
    split_ifs at h
    cases h
    rfl
  | bool b => simp [checkDescription] at h
  | number q => simp [checkDescription] at h
  | malformed => simp [checkDescription] at h

theorem checkStatus_ok {v : Sql} {s : Option String} (h : checkStatus v = .ok s) :
    v = Sql.ofText s ∧ (s = none ∨ s = some "pending" ∨ s = some "completed") := by
  cases v with
  | null => simp only [checkStatus] at h; cases h; exact ⟨rfl, Or.inl rfl⟩
  | text x =>
    simp only [checkStatus] at h
    split_ifs at h with hx
    cases h
    rcases hx with rfl | rfl
    · exact ⟨rfl, Or.inr (Or.inl rfl)⟩
    · exact ⟨rfl, Or.inr (Or.inr rfl)⟩
  | bool b => simp [checkStatus] at h
  | number q => simp [checkStatus] at h
  | malformed => simp [checkStatus] at h

theorem ofText_injective {a b : Option String} (h : Sql.ofText a = Sql.ofText b) : a = b := by
  cases a <;> cases b <;> simp_all [Sql.ofText]

theorem insert_ok {db db' : Db} {title description status : Sql} {now insertId : Nat}
    (h : db.insert title description status now = .ok (db', insertId)) :
    db.connError = none ∧ insertId = db.autoIncrement ∧
    (∀ r ∈ db.tasks, r.id ≠ insertId) ∧
    ∃ t d s, title = .text t ∧ description = Sql.ofText d ∧ status = Sql.ofText s ∧
      (s = none ∨ s = some "pending" ∨ s = some "completed") ∧
      db' = { db with
              tasks := db.tasks ++ [{ id := insertId, title := t, description := d,
                                      status := s, created_at := now, updated_at := now }],
              autoIncrement := insertId + 1 } := by
  unfold Db.insert at h
  cases hc : db.connError with
  | some e => simp [hc] at h
  | none =>
    simp only [hc] at h
    by_cases hwf : wellFormed [title, description, status] = true
    swap
    · rw [if_neg hwf] at h
      cases h
    rw [if_pos hwf] at h
    cases ht : checkTitle title with
    | error e => simp [ht] at h
    | ok t =>
      cases hd : checkDescription description with
      | error e => simp [ht, hd] at h
      | ok d =>
        cases hs : checkStatus status with
        | error e => simp [ht, hd, hs] at h
        | ok s =>
          simp only [ht, hd, hs] at h
          split_ifs at h with h1 h2
          simp only [Except.ok.injEq, Prod.mk.injEq] at h
          obtain ⟨hdb, hid⟩ := h
          obtain ⟨hs', hmem⟩ := checkStatus_ok hs
          subst hid
          refine ⟨rfl, rfl, ?_, t, d, s, checkTitle_ok ht, checkDescription_ok hd, hs', hmem,
            hdb.symm⟩
          intro r hr hrid
          apply h2
          simp only [List.any_eq_true, beq_iff_eq]
          exact ⟨r, hr, hrid⟩

theorem update_ok {db db' : Db} {title description status : Sql} {taskId : Seg}
    {now n : Nat} (h : db.update title description status taskId now = .ok (db', n))
    (hrow : ∃ r ∈ db.tasks, whereId taskId r = true) :
    db.connError = none ∧
    ∃ t d s, title = .text t ∧ description = Sql.ofText d ∧ status = Sql.ofText s ∧
      (s = none ∨ s = some "pending" ∨ s = some "completed") ∧
      db' = { db with tasks := db.tasks.map fun r =>
                if whereId taskId r then r.assign t d s now else r } := by
  unfold Db.update at h
  cases hc : db.connError with
  | some e => simp [hc] at h
  | none =>
    simp only [hc] at h
    by_cases hwf : wellFormed [title, description, status] = true
    swap
    · rw [if_neg hwf] at h
      cases h
    rw [if_pos hwf] at h
    have hany : db.tasks.any (whereId taskId) = true := by
      simpa only [List.any_eq_true] using hrow
    simp only [hany, if_true] at h
    cases ht : checkTitle title with
    | error e => simp [ht] at h
    | ok t =>
      cases hd : checkDescription description with
      | error e => simp [ht, hd] at h
      | ok d =>
        cases hs : checkStatus status with
        | error e => simp [ht, hd, hs] at h
        | ok s =>
          simp only [ht, hd, hs, Except.ok.injEq, Prod.mk.injEq] at h
          obtain ⟨hs', hmem⟩ := checkStatus_ok hs
          exact ⟨rfl, t, d, s, checkTitle_ok ht, checkDescription_ok hd, hs', hmem,
            h.1.symm⟩

theorem selectById_ok {db : Db} {taskId : Seg} {results : List Task}
    (h : db.selectById taskId = .ok results) :
    db.connError = none ∧ results = db.tasks.filter (whereId taskId) := by
  unfold Db.selectById at h
  cases hc : db.connError with
  | some e => simp [hc] at h
  | none =>
    simp only [hc, Except.ok.injEq] at h
    exact ⟨rfl, h.symm⟩

theorem selectById_head {db : Db} {taskId : Seg} {row : Task} {rest : List Task}
    (h : db.selectById taskId = .ok (row :: rest)) :
    row ∈ db.tasks ∧ whereId taskId row = true := by
  have hf := (selectById_ok h).2
  have hmem : row ∈ db.tasks.filter (whereId taskId) := by
    rw [← hf]
    exact List.mem_cons_self _ _
  exact List.mem_filter.mp hmem

theorem updateStatus_ok {db db' : Db} {member : String} {taskId : Seg} {now n : Nat}
    (h : db.updateStatus member taskId now = .ok (db', n)) :
    db.connError = none ∧ n = (db.tasks.filter (whereId taskId)).length ∧
    db' = { db with tasks := db.tasks.map fun r =>
              if whereId taskId r then r.assign r.title r.description (some member) now
              else r } := by
  unfold Db.updateStatus at h
  cases hc : db.connError with
  | some e => simp [hc] at h
  | none =>
    simp only [hc, Except.ok.injEq, Prod.mk.injEq] at h
    exact ⟨rfl, h.2.symm, h.1.symm⟩

theorem delete_ok {db db' : Db} {taskId : Seg} {n : Nat}
    (h : db.delete taskId = .ok (db', n)) :
    db.connError = none ∧ n = (db.tasks.filter (whereId taskId)).length ∧
    db' = { db with tasks := db.tasks.filter fun r => !(whereId taskId r) } := by
  unfold Db.delete at h
  cases hc : db.connError with
  | some e => simp [hc] at h
  | none =>
    simp only [hc, Except.ok.injEq, Prod.mk.injEq] at h
    exact ⟨rfl, h.2.symm, h.1.symm⟩

theorem assign_fields (t : Task) (title : String) (description status : Option String)
    (now : Nat) :
    (t.assign title description status now).id = t.id ∧
    (t.assign title description status now).title = title ∧
    (t.assign title description status now).description = description ∧
    (t.assign title description status now).status = status := by
  unfold Task.assign
  split_ifs with h
  · exact ⟨rfl, h.1, h.2.1, h.2.2⟩
  · exact ⟨rfl, rfl, rfl, rfl⟩

theorem assign_status (t : Task) (title : String) (description status : Option String)
    (now : Nat) : (t.assign title description status now).status = status :=
  (assign_fields t title description status now).2.2.2

theorem whereId_assign (taskId : Seg) (t : Task) (title : String)
    (description status : Option String) (now : Nat) :
    whereId taskId (t.assign title description status now) = whereId taskId t := by
  unfold whereId
  rw [(assign_fields t title description status now).1]

/-! ## Dispatch -/

theorem dispatch_elim {P : Db × Response → Prop} (now : Nat) (req : Request) (db : Db)
    (hkeep : ∀ answer, P (db, answer))
    (stack : List Layer)
    (hroute : ∀ run action body answer, Layer.route req.method run ∈ stack →
      run req.path = some action → action now body db = .ok answer → P answer)
    (err : Option String) (body : Option ReqBody) :
    P (dispatch stack err body now req db) := by
  induction stack generalizing err body with
  | nil => cases err <;> exact hkeep _
  | cons l rest ih =>
    have ih' := ih (fun run action body answer hmem h =>
      hroute run action body answer (List.mem_cons_of_mem _ hmem) h)
    cases err with
    | some e =>
      cases l with
      | errorHandler => exact hkeep _
      | cors => exact ih' _ _
      | json => exact ih' _ _
      | notFound => exact ih' _ _
      | route m run => exact ih' _ _
    | none =>
      cases l with
      | cors => exact ih' _ _
      | errorHandler => exact ih' _ _
      | notFound => exact hkeep _
      | json =>
        simp only [dispatch]
        cases req.body with
        | unparsable message => exact ih' _ _
        | absent => exact ih' _ _
        | parsed fields => exact ih' _ _
      | route m run =>
        simp only [dispatch]
        split_ifs with hm
        · subst hm
          cases hrun : run req.path with
          | none => exact ih' _ _
          | some action =>
            simp only
            cases hact : action now body db with
            | error e => exact ih' _ _
            | ok answer =>
              exact hroute run action body answer (List.mem_cons_self _ _) hrun hact
        · exact ih' _ _

theorem handle_elim {P : Db × Response → Prop} (now : Nat) (req : Request) (db : Db)
    (hkeep : ∀ answer, P (db, answer))
    (hpost : ∀ body values, P (postTasksQuery now body values db))
    (hput : ∀ taskId body, P (putTaskQuery now taskId body db))
    (hdelete : ∀ taskId, P (deleteTask taskId db))
    (hcomplete : ∀ taskId, P (patchComplete now taskId db))
    (hpending : ∀ taskId, P (patchPending now taskId db)) :
    P (handle now req db) := by
  unfold handle
  apply dispatch_elim now req db hkeep app
  intro run action body answer hmem hrun hact
  simp only [app, List.mem_cons, List.mem_singleton, Layer.route.injEq, List.mem_nil_iff,
    or_false, false_or, reduceCtorEq] at hmem
  rcases hmem with ⟨_, rfl⟩ | ⟨_, rfl⟩ | ⟨_, rfl⟩ | ⟨_, rfl⟩ | ⟨_, rfl⟩ | ⟨_, rfl⟩ |
    ⟨_, rfl⟩ | ⟨_, rfl⟩
  · beta_reduce at hrun
    split at hrun
    · cases hrun
      cases hact
      unfold getTasks
      cases db.selectAll <;> exact hkeep _
    · cases hrun
  · beta_reduce at hrun
    split at hrun
    · cases hrun
      cases hact
      unfold getTaskById
      cases h : db.selectById _ with
      | error e => exact hkeep _
      | ok results => cases results <;> exact hkeep _
    · cases hrun
  · beta_reduce at hrun
    split at hrun
    · cases hrun
      unfold postTasks at hact
      cases hb : destructure body with
      | error e => simp [hb] at hact
      | ok fields =>
        cases hv : postValues fields with
        | error e => simp [hb, hv] at hact
        | ok values =>
          simp only [hb, hv, Except.ok.injEq] at hact
          subst hact
          exact hpost _ _
    · cases hrun
  · beta_reduce at hrun
    split at hrun
    · cases hrun
      unfold putTask at hact
      cases hb : destructure body with
      | error e => simp [hb] at hact
      | ok fields =>
        simp only [hb, Except.ok.injEq] at hact
        subst hact
        exact hput _ _
    · cases hrun
  · beta_reduce at hrun
    split at hrun
    · cases hrun
      cases hact
      exact hdelete _
    · cases hrun
  · beta_reduce at hrun
    split at hrun
    · cases hrun
      cases hact
      exact hcomplete _
    · cases hrun
  · beta_reduce at hrun
    split at hrun
    · cases hrun
      cases hact
      exact hpending _
    · cases hrun
  · beta_reduce at hrun
    split at hrun
    · cases hrun
      cases hact
      exact hkeep _
    · cases hrun

/-! ## The status invariant, handler by handler -/

theorem statusNullOrEnum_postTasksQuery (now : Nat) (body : ReqBody)
    (values : JVal × JVal × JVal) (db : Db)
    (h : StatusNullOrEnum db) : StatusNullOrEnum (postTasksQuery now body values db).1 := by
  unfold postTasksQuery
  cases hins : db.insert values.1.toSql values.2.1.toSql values.2.2.toSql now with
  | error e => exact h
  | ok r =>
    obtain ⟨db', insertId⟩ := r
    obtain ⟨_, _, _, t, d, s, _, _, _, hst, hdb⟩ := insert_ok hins
    subst hdb
    intro r hr
    simp only [List.mem_append, List.mem_singleton] at hr
    rcases hr with hr | rfl
    · exact h r hr
    · exact hst

theorem statusNullOrEnum_putTaskQuery (now : Nat) (taskId : Seg) (body : ReqBody) (db : Db)
    (h : StatusNullOrEnum db) : StatusNullOrEnum (putTaskQuery now taskId body db).1 := by
  unfold putTaskQuery
  cases hsel : db.selectById taskId with
  | error e => exact h
  | ok results =>
    cases results with
    | nil => exact h
    | cons row rest =>
      simp only
      cases hupd : db.update (putValues body row).1.toSql (putValues body row).2.1.toSql
          (putValues body row).2.2.toSql taskId now with
      | error e => exact h
      | ok r =>
        obtain ⟨db', n⟩ := r
        obtain ⟨hrow, hwhere⟩ := selectById_head hsel
        obtain ⟨_, t, d, s, _, _, _, hst, hdb⟩ := update_ok hupd ⟨row, hrow, hwhere⟩
        subst hdb
        intro r hr
        simp only [List.mem_map] at hr
        obtain ⟨r0, hr0, rfl⟩ := hr
        split_ifs
        · rw [assign_status]
          exact hst
        · exact h r0 hr0

theorem statusNullOrEnum_deleteTask (taskId : Seg) (db : Db)
    (h : StatusNullOrEnum db) : StatusNullOrEnum (deleteTask taskId db).1 := by
  unfold deleteTask
  cases hdel : db.delete taskId with
  | error e => exact h
  | ok r =>
    obtain ⟨db', n⟩ := r
    obtain ⟨_, _, hdb⟩ := delete_ok hdel
    have hsub : StatusNullOrEnum db' := by
      subst hdb
      intro r hr
      exact h r (List.mem_filter.mp hr).1
    simp only
    split_ifs <;> exact hsub

theorem statusNullOrEnum_updateStatus {db db' : Db} {member : String} {taskId : Seg}
    {now n : Nat} (hm : member = "pending" ∨ member = "completed")
    (hupd : db.updateStatus member taskId now = .ok (db', n))
    (h : StatusNullOrEnum db) : StatusNullOrEnum db' := by
  obtain ⟨_, _, hdb⟩ := updateStatus_ok hupd
  subst hdb
  intro r hr
  simp only [List.mem_map] at hr
  obtain ⟨r0, hr0, rfl⟩ := hr
  split_ifs
  · rw [assign_status]
    rcases hm with rfl | rfl <;> simp
  · exact h r0 hr0

theorem statusNullOrEnum_patchComplete (now : Nat) (taskId : Seg) (db : Db)
    (h : StatusNullOrEnum db) : StatusNullOrEnum (patchComplete now taskId db).1 := by
  unfold patchComplete
  cases hupd : db.updateStatus "completed" taskId now with
  | error e => exact h
  | ok r =>
    obtain ⟨db', n⟩ := r
    have hsub := statusNullOrEnum_updateStatus (Or.inr rfl) hupd h
    simp only
    split_ifs <;> exact hsub

theorem statusNullOrEnum_patchPending (now : Nat) (taskId : Seg) (db : Db)
    (h : StatusNullOrEnum db) : StatusNullOrEnum (patchPending now taskId db).1 := by
  unfold patchPending
  cases hupd : db.updateStatus "pending" taskId now with
  | error e => exact h
  | ok r =>
    obtain ⟨db', n⟩ := r
    have hsub := statusNullOrEnum_updateStatus (Or.inl rfl) hupd h
    simp only
    split_ifs <;> exact hsub

theorem statusNullOrEnum_handle (now : Nat) (req : Request) (db : Db)
    (h : StatusNullOrEnum db) : StatusNullOrEnum (handle now req db).1 := by
  apply handle_elim (P := fun r => StatusNullOrEnum r.1) now req db
  · exact fun _ => h
  · exact fun body values => statusNullOrEnum_postTasksQuery now body values db h
  · exact fun taskId body => statusNullOrEnum_putTaskQuery now taskId body db h
  · exact fun taskId => statusNullOrEnum_deleteTask taskId db h
  · exact fun taskId => statusNullOrEnum_patchComplete now taskId db h
  · exact fun taskId => statusNullOrEnum_patchPending now taskId db h

/-! ## Where the stack sends the listed requests -/

theorem handle_unparsable (now : Nat) (method : Method) (path : List Seg) (m : String)
    (db : Db) :
    handle now ⟨method, path, .unparsable m⟩ db = errorMiddleware m db := rfl

theorem handle_getTasks (now : Nat) (b : ReqBody) (db : Db) :
    handle now ⟨.GET, [.word "tasks"], .parsed b⟩ db = getTasks db := rfl

theorem handle_getTaskById (now : Nat) (taskId : Seg) (b : ReqBody) (db : Db) :
    handle now ⟨.GET, [.word "tasks", taskId], .parsed b⟩ db = getTaskById taskId db := rfl

theorem handle_getTaskById_absent (now : Nat) (taskId : Seg) (db : Db) :
    handle now ⟨.GET, [.word "tasks", taskId], .absent⟩ db = getTaskById taskId db := rfl

theorem handle_postTasks (now : Nat) (b : ReqBody) (db : Db) :
    handle now ⟨.POST, [.word "tasks"], .parsed b⟩ db =
      match postValues b with
      | .ok values => postTasksQuery now b values db
      | .error e => errorMiddleware e db := by
  cases hv : postValues b <;>
    simp [handle, app, dispatch, postTasks, destructure, hv]

theorem handle_putTask (now : Nat) (taskId : Seg) (b : ReqBody) (db : Db) :
    handle now ⟨.PUT, [.word "tasks", taskId], .parsed b⟩ db = putTaskQuery now taskId b db :=
  rfl

theorem handle_putTask_absent (now : Nat) (taskId : Seg) (db : Db) :
    handle now ⟨.PUT, [.word "tasks", taskId], .absent⟩ db =
      errorMiddleware
        "Cannot destructure property 'title' of 'req.body' as it is undefined." db := rfl

theorem handle_deleteTask (now : Nat) (taskId : Seg) (b : ReqBody) (db : Db) :
    handle now ⟨.DELETE, [.word "tasks", taskId], .parsed b⟩ db = deleteTask taskId db := rfl

theorem handle_deleteTask_absent (now : Nat) (taskId : Seg) (db : Db) :
    handle now ⟨.DELETE, [.word "tasks", taskId], .absent⟩ db = deleteTask taskId db := rfl

theorem handle_patchComplete (now : Nat) (taskId : Seg) (b : ReqBody) (db : Db) :
    handle now ⟨.PATCH, [.word "tasks", taskId, .word "complete"], .parsed b⟩ db =
      patchComplete now taskId db := rfl

theorem handle_patchComplete_absent (now : Nat) (taskId : Seg) (db : Db) :
    handle now ⟨.PATCH, [.word "tasks", taskId, .word "complete"], .absent⟩ db =
      patchComplete now taskId db := rfl

theorem handle_patchPending (now : Nat) (taskId : Seg) (b : ReqBody) (db : Db) :
    handle now ⟨.PATCH, [.word "tasks", taskId, .word "pending"], .parsed b⟩ db =
      patchPending now taskId db := rfl

theorem handle_patchPending_absent (now : Nat) (taskId : Seg) (db : Db) :
    handle now ⟨.PATCH, [.word "tasks", taskId, .word "pending"], .absent⟩ db =
      patchPending now taskId db := rfl

theorem filter_whereId_filter_not (taskId : Seg) (l : List Task) :
    (l.filter fun r => !(whereId taskId r)).filter (whereId taskId) = [] := by
  rw [List.filter_eq_nil_iff]
  intro r hr
  have := (List.mem_filter.mp hr).2
  simpa using this

theorem patch_fetch {db db' : Db} {member : String} {taskId : Seg} {now n : Nat}
    (hupd : db.updateStatus member taskId now = .ok (db', n)) (hn : n ≠ 0) :
    ∃ row, (getTaskById taskId db').2 = ⟨200, .task "Task fetched successfully" row⟩ ∧
      row.status = some member := by
  obtain ⟨hc, hlen, hdb⟩ := updateStatus_ok hupd
  have hfilter : db'.tasks.filter (whereId taskId) =
      (db.tasks.filter (whereId taskId)).map
        fun r => r.assign r.title r.description (some member) now := by
    subst hdb
    simp only
    generalize db.tasks = l
    induction l with
    | nil => rfl
    | cons r rs ih =>
      by_cases hw : whereId taskId r = true
      · simp [List.filter_cons, hw, whereId_assign, ih]
      · simp [List.filter_cons, hw, ih]
  cases hl : db.tasks.filter (whereId taskId) with
  | nil => rw [hl] at hlen; exact absurd hlen hn
  | cons r rs =>
    refine ⟨r.assign r.title r.description (some member) now, ?_, assign_status _ _ _ _ _⟩
    have hc' : db'.connError = none := by subst hdb; exact hc
    unfold getTaskById Db.selectById
    rw [hc']
    simp only [hfilter, hl, List.map_cons]

/-! ## The values of an Update with textual fields -/

theorem string_data_isEmpty (s : String) : s.data.isEmpty = true ↔ s = "" := by
  obtain ⟨data⟩ := s
  cases data with
  | nil => simp
  | cons c cs =>
    simp only [List.isEmpty_cons, Bool.false_eq_true, false_iff]
    intro h
    have := congrArg String.data h
    simp at this

theorem putValues_title (body : TextBody) (row : Task) :
    (putValues body.toReqBody row).1.toSql = .text (specTitle body.title row.title) := by
  unfold putValues specTitle JVal.or TextBody.toReqBody
  simp only
  cases body.title with
  | undefined => rfl
  | null => rfl
  | str s =>
    by_cases hs : s = ""
    · subst hs
      rfl
    · have : s.data.isEmpty = false := by
        cases h : s.data.isEmpty with
        | true => exact absurd ((string_data_isEmpty s).mp h) hs
        | false => rfl
      simp [TextField.toJVal, JVal.truthy, this, hs, JVal.toSql, JVal.toSqlItem]

theorem putValues_description (body : TextBody) (row : Task) :
    (putValues body.toReqBody row).2.1.toSql =
      Sql.ofText (specDescription body.description row.description) := by
  unfold putValues specDescription TextBody.toReqBody
  simp only
  cases body.description with
  | undefined => cases row.description <;> rfl
  | null => rfl
  | str s => rfl

theorem putValues_status (body : TextBody) (row : Task) :
    (putValues body.toReqBody row).2.2.toSql =
      Sql.ofText (specStatus body.status row.status) := by
  unfold putValues specStatus JVal.or TextBody.toReqBody
  simp only
  cases body.status with
  | undefined => cases row.status <;> rfl
  | null => cases row.status <;> rfl
  | str s =>
    by_cases hs : s = ""
    · subst hs
      cases row.status <;> rfl
    · have : s.data.isEmpty = false := by
        cases h : s.data.isEmpty with
        | true => exact absurd ((string_data_isEmpty s).mp h) hs
        | false => rfl
      simp [TextField.toJVal, JVal.truthy, this, hs, JVal.toSql, JVal.toSqlItem, Sql.ofText]

/-! ## `ORDER BY created_at DESC` -/

theorem insertDesc_perm (t : Task) (l : List Task) : (insertDesc t l).Perm (t :: l) := by
  induction l with
  | nil => exact List.Perm.refl _
  | cons r rs ih =>
    unfold insertDesc
    split_ifs
    · exact List.Perm.refl _
    · exact (List.Perm.cons r ih).trans (List.Perm.swap t r rs)

theorem orderByCreatedAtDesc_perm (l : List Task) : (orderByCreatedAtDesc l).Perm l := by
  induction l with
  | nil => exact List.Perm.refl _
  | cons t ts ih =>
    unfold orderByCreatedAtDesc
    exact (insertDesc_perm t _).trans (List.Perm.cons t ih)

theorem insertDesc_pairwise (t : Task) (l : List Task)
    (h : l.Pairwise fun a b => b.created_at ≤ a.created_at) :
    (insertDesc t l).Pairwise fun a b => b.created_at ≤ a.created_at := by
  induction l with
  | nil => simp [insertDesc]
  | cons r rs ih =>
    rw [List.pairwise_cons] at h
    unfold insertDesc
    split_ifs with hle
    · rw [List.pairwise_cons]
      refine ⟨?_, List.pairwise_cons.mpr h⟩
      intro x hx
      rcases List.mem_cons.mp hx with rfl | hx
      · exact hle
      · exact le_trans (h.1 x hx) hle
    · rw [List.pairwise_cons]
      refine ⟨?_, ih h.2⟩
      intro x hx
      rcases List.mem_cons.mp ((insertDesc_perm t rs).mem_iff.mp hx) with rfl | hx
      · exact le_of_lt (not_le.mp hle)
      · exact h.1 x hx

theorem orderByCreatedAtDesc_pairwise (l : List Task) :
    (orderByCreatedAtDesc l).Pairwise fun a b => b.created_at ≤ a.created_at := by
  induction l with
  | nil => simp [orderByCreatedAtDesc]
  | cons t ts ih =>
    unfold orderByCreatedAtDesc
    exact insertDesc_pairwise t _ ih

/-- The handlers pass any status string on; the column rejects what is not a member:
`POST /tasks` with status `"done"` answers 500 and leaves the table as it was. -/
theorem postTasks_rejects_unknown_status :
    handle 5 ⟨.POST, [.word "tasks"], .parsed ⟨.str "a", .undefined, .str "done"⟩⟩ Db.empty =
      (Db.empty, ⟨500, .error "Failed to create task"
        (some "Data truncated for column 'status' at row 1")⟩) := rfl

/-- A title that is not a string has no `trim`: `POST /tasks` with title `5` throws, and
the error middleware answers. -/
theorem postTasks_throws_on_numeric_title :
    handle 5 ⟨.POST, [.word "tasks"], .parsed ⟨.num 5, .undefined, .undefined⟩⟩ Db.empty =
      (Db.empty, ⟨500, .error "Something went wrong!"
        (some "title?.trim is not a function")⟩) := rfl

/-! ## The claims -/

/-- C1 (the code at the failing input).  `POST /tasks` with the title `" a"` on the empty
table answers 201 and echoes the title as sent, `" a"`, while the row it stored, which
`GET /tasks/1` returns right afterwards, has the trimmed title `"a"`: the round trip of
the claim fails on the title. -/
theorem C1_create_echo_is_not_the_stored_title :
    (handle 5 ⟨.POST, [.word "tasks"], .parsed ⟨.str " a", .undefined, .undefined⟩⟩
      Db.empty).2 =
      ⟨201, .created "Task created successfully" 1 (.str " a") .null (.str "pending")⟩ ∧
    (handle 5 ⟨.GET, [.word "tasks", .num 1], .parsed ⟨.undefined, .undefined, .undefined⟩⟩
      (handle 5 ⟨.POST, [.word "tasks"], .parsed ⟨.str " a", .undefined, .undefined⟩⟩
        Db.empty).1).2 =
      ⟨200, .task "Task fetched successfully" ⟨1, "a", none, some "pending", 5, 5⟩⟩ :=
  ⟨rfl, rfl⟩

/-- C2.  Update field merge, for every body whose fields are absent, null or strings: let
`t` be the existing task the handler reads for the id (`results[0]`).  Whenever
`PUT /tasks/:id` answers 200, the table still has a row of that id, and every row of that
id has title = the supplied title if present and non-empty, else `t.title`; description =
the supplied description whenever the field is present (null and the empty string as
given), else `t.description`; status = the supplied status if present and non-empty, else
`t.status`; the rows of other ids are untouched.  In particular a body with only a
description keeps `t.title` and `t.status`, and an empty-string title is replaced by
`t.title`. -/
theorem C2_update_field_merge (now : Nat) (taskId : Seg) (body : TextBody) (db : Db)
    (t : Task) (rest : List Task) (hsel : db.selectById taskId = .ok (t :: rest))
    (hok : (handle now ⟨.PUT, [.word "tasks", taskId], .parsed body.toReqBody⟩
      db).2.status = 200) :
    (∃ r ∈ (handle now ⟨.PUT, [.word "tasks", taskId], .parsed body.toReqBody⟩ db).1.tasks,
      whereId taskId r = true) ∧
    (∀ r ∈ (handle now ⟨.PUT, [.word "tasks", taskId], .parsed body.toReqBody⟩ db).1.tasks,
      whereId taskId r = true →
        r.title = specTitle body.title t.title ∧
        r.description = specDescription body.description t.description ∧
        r.status = specStatus body.status t.status) ∧
    ((handle now ⟨.PUT, [.word "tasks", taskId], .parsed body.toReqBody⟩ db).1.tasks.filter
        (fun r => !(whereId taskId r)) = db.tasks.filter (fun r => !(whereId taskId r))) ∧
    (specTitle .undefined t.title = t.title ∧ specStatus .undefined t.status = t.status) ∧
    specTitle (.str "") t.title = t.title := by
  rw [handle_putTask] at hok ⊢
  unfold putTaskQuery at hok ⊢
  simp only [hsel] at hok ⊢
  cases hupd : db.update (putValues body.toReqBody t).1.toSql
      (putValues body.toReqBody t).2.1.toSql
      (putValues body.toReqBody t).2.2.toSql taskId now with
  | error e => simp [hupd] at hok
  | ok r =>
    obtain ⟨db', n⟩ := r
    obtain ⟨hrow, hwhere⟩ := selectById_head hsel
    obtain ⟨_, tt, d, s, htt, hd, hs, _, hdb⟩ := update_ok hupd ⟨t, hrow, hwhere⟩
    rw [putValues_title] at htt
    rw [putValues_description] at hd
    rw [putValues_status] at hs
    have htt' : tt = specTitle body.title t.title := (Sql.text.inj htt).symm
    have hd' : d = specDescription body.description t.description :=
      (ofText_injective hd).symm
    have hs' : s = specStatus body.status t.status := (ofText_injective hs).symm
    subst htt' hd' hs' hdb
    simp only
    refine ⟨?_, ?_, ?_, ⟨rfl, rfl⟩, rfl⟩
    · refine ⟨_, List.mem_map.mpr ⟨t, hrow, rfl⟩, ?_⟩
      rw [if_pos hwhere, whereId_assign]
      exact hwhere
    · intro r hr hw
      obtain ⟨r0, _, rfl⟩ := List.mem_map.mp hr
      split_ifs at hw ⊢ with h0
      · exact (assign_fields _ _ _ _ _).2
      · exact absurd hw h0
    · generalize db.tasks = l
      induction l with
      | nil => rfl
      | cons r rs ih =>
        by_cases hw : whereId taskId r = true
        · simp [List.filter_cons, hw, whereId_assign, ih]
        · simp [List.filter_cons, hw, ih]

/-- C2 at a one-task store: a body with only a description, explicitly null. -/
theorem C2_update_field_merge_witness :
    (⟨[⟨1, "a", some "d", some "completed", 5, 5⟩], 2, none⟩ : Db).selectById (.num 1) =
      .ok [⟨1, "a", some "d", some "completed", 5, 5⟩] ∧
    (handle 9 ⟨.PUT, [.word "tasks", .num 1],
        .parsed (TextBody.toReqBody ⟨.undefined, .null, .undefined⟩)⟩
      ⟨[⟨1, "a", some "d", some "completed", 5, 5⟩], 2, none⟩).2.status = 200 ∧
    ∀ r ∈ (handle 9 ⟨.PUT, [.word "tasks", .num 1],
        .parsed (TextBody.toReqBody ⟨.undefined, .null, .undefined⟩)⟩
        ⟨[⟨1, "a", some "d", some "completed", 5, 5⟩], 2, none⟩).1.tasks,
      whereId (.num 1) r = true →
        r.title = "a" ∧ r.description = none ∧ r.status = some "completed" :=
  ⟨rfl, by decide,
   (C2_update_field_merge 9 (.num 1) ⟨.undefined, .null, .undefined⟩
      ⟨[⟨1, "a", some "d", some "completed", 5, 5⟩], 2, none⟩
      ⟨1, "a", some "d", some "completed", 5, 5⟩ [] rfl (by decide)).2.1⟩

/-- C3 (the code on `GET /`).  For every store and clock reading, `GET /` with a body that
parses, or with none, is answered by the 404 handler, registered before `app.get('/')`:
status 404 and `{ error: 'Route not found' }`, not 200 and the greeting. -/
theorem C3_root_is_answered_by_the_404_handler (now : Nat) (b : ReqBody) (db : Db) :
    handle now ⟨.GET, [], .parsed b⟩ db = (db, ⟨404, .error "Route not found" none⟩) ∧
    handle now ⟨.GET, [], .absent⟩ db = (db, ⟨404, .error "Route not found" none⟩) :=
  ⟨rfl, rfl⟩

/-- C4 (the claim fails).  A store whose task 1 every query finds: `GET /tasks/1` with a
JSON body that does not parse is answered 500 by the error middleware, with the parser's
message as details, although the select would succeed and find the row; and
`PUT /tasks/1` without a body is answered 500 when `req.body` is `undefined`, the
destructuring of line 128 having thrown before any query.  So 500 is not answered only
when a store query fails, and the remaining cases are not all 200. -/
theorem C4_error_middleware_answers_500_without_store_failure :
    handle 5 ⟨.GET, [.word "tasks", .num 1], .unparsable "Unexpected end of JSON input"⟩
        ⟨[⟨1, "a", none, some "pending", 5, 5⟩], 2, none⟩ =
      (⟨[⟨1, "a", none, some "pending", 5, 5⟩], 2, none⟩,
       ⟨500, .error "Something went wrong!" (some "Unexpected end of JSON input")⟩) ∧
    handle 5 ⟨.PUT, [.word "tasks", .num 1], .absent⟩
        ⟨[⟨1, "a", none, some "pending", 5, 5⟩], 2, none⟩ =
      (⟨[⟨1, "a", none, some "pending", 5, 5⟩], 2, none⟩,
       ⟨500, .error "Something went wrong!"
         (some "Cannot destructure property 'title' of 'req.body' as it is undefined.")⟩) ∧
    (⟨[⟨1, "a", none, some "pending", 5, 5⟩], 2, none⟩ : Db).selectById (.num 1) =
      .ok [⟨1, "a", none, some "pending", 5, 5⟩] ∧
    ¬ ErrorMapping
      (handle 5 ⟨.GET, [.word "tasks", .num 1], .unparsable "Unexpected end of JSON input"⟩
        ⟨[⟨1, "a", none, some "pending", 5, 5⟩], 2, none⟩).2
      ((⟨[⟨1, "a", none, some "pending", 5, 5⟩], 2, none⟩ : Db).selectById (.num 1) = .ok [])
      (fun m => (⟨[⟨1, "a", none, some "pending", 5, 5⟩], 2, none⟩ : Db).selectById (.num 1)
        = .error m) := by
  refine ⟨rfl, rfl, rfl, ?_⟩
  intro h
  have h500 := (h.2.1 "Unexpected end of JSON input").mp ⟨rfl, rfl⟩
  have hsel : (⟨[⟨1, "a", none, some "pending", 5, 5⟩], 2, none⟩ : Db).selectById (.num 1) =
      .ok [⟨1, "a", none, some "pending", 5, 5⟩] := rfl
  rw [hsel] at h500
  cases h500

/-- C4 (amended).  Error mapping of the id-scoped operations on the requests that reach
their handler, for every id, clock reading and store.  With a body that parses, GetById
and Update answer 404 `Task not found` exactly when the select succeeds with an empty
result, and Delete and the two SetStatus operations exactly when their statement succeeds
with zero affected rows; each answers 500 with details `m` exactly when a store query it
issues fails with message `m` (for Update: the select, or the update issued after a
non-empty select); in all remaining cases the status is 200.  GetById, Delete and
SetStatus answer a request without body as one with a body.  A request whose body does
not parse, whatever its method and path, and an Update whose `req.body` is `undefined`,
are answered 500 `Something went wrong!` by the error middleware, with the thrown error's
message as details and the store untouched. -/
theorem C4_error_mapping_of_handled_requests (now : Nat) (taskId : Seg) (body : ReqBody)
    (db : Db) :
    ErrorMapping (handle now ⟨.GET, [.word "tasks", taskId], .parsed body⟩ db).2
      (db.selectById taskId = .ok [])
      (fun m => db.selectById taskId = .error m) ∧
    ErrorMapping (handle now ⟨.PUT, [.word "tasks", taskId], .parsed body⟩ db).2
      (db.selectById taskId = .ok [])
      (fun m => db.selectById taskId = .error m ∨
        ∃ row rest, db.selectById taskId = .ok (row :: rest) ∧
          db.update (putValues body row).1.toSql (putValues body row).2.1.toSql
            (putValues body row).2.2.toSql taskId now = .error m) ∧
    ErrorMapping (handle now ⟨.DELETE, [.word "tasks", taskId], .parsed body⟩ db).2
      (∃ db', db.delete taskId = .ok (db', 0))
      (fun m => db.delete taskId = .error m) ∧
    ErrorMapping
      (handle now ⟨.PATCH, [.word "tasks", taskId, .word "complete"], .parsed body⟩ db).2
      (∃ db', db.updateStatus "completed" taskId now = .ok (db', 0))
      (fun m => db.updateStatus "completed" taskId now = .error m) ∧
    ErrorMapping
      (handle now ⟨.PATCH, [.word "tasks", taskId, .word "pending"], .parsed body⟩ db).2
      (∃ db', db.updateStatus "pending" taskId now = .ok (db', 0))
      (fun m => db.updateStatus "pending" taskId now = .error m) ∧
    (handle now ⟨.GET, [.word "tasks", taskId], .absent⟩ db =
        handle now ⟨.GET, [.word "tasks", taskId], .parsed body⟩ db ∧
      handle now ⟨.DELETE, [.word "tasks", taskId], .absent⟩ db =
        handle now ⟨.DELETE, [.word "tasks", taskId], .parsed body⟩ db ∧
      handle now ⟨.PATCH, [.word "tasks", taskId, .word "complete"], .absent⟩ db =
        handle now ⟨.PATCH, [.word "tasks", taskId, .word "complete"], .parsed body⟩ db ∧
      handle now ⟨.PATCH, [.word "tasks", taskId, .word "pending"], .absent⟩ db =
        handle now ⟨.PATCH, [.word "tasks", taskId, .word "pending"], .parsed body⟩ db) ∧
    (∀ method path m, handle now ⟨method, path, .unparsable m⟩ db =
        (db, ⟨500, .error "Something went wrong!" (some m)⟩)) ∧
    handle now ⟨.PUT, [.word "tasks", taskId], .absent⟩ db =
      (db, ⟨500, .error "Something went wrong!"
        (some "Cannot destructure property 'title' of 'req.body' as it is undefined.")⟩) := by
  rw [handle_getTaskById, handle_putTask, handle_deleteTask, handle_patchComplete,
    handle_patchPending]
  refine ⟨?_, ?_, ?_, ?_, ?_, ⟨rfl, rfl, rfl, rfl⟩, fun _ _ _ => rfl, rfl⟩
  · unfold ErrorMapping getTaskById
    cases h : db.selectById taskId with
    | error e => simp [Response.details]
    | ok l => cases l <;> simp [Response.details]
  · unfold ErrorMapping putTaskQuery
    cases h : db.selectById taskId with
    | error e => simp [Response.details]
    | ok l =>
      cases l with
      | nil => simp [Response.details]
      | cons row rest =>
        cases hupd : db.update (putValues body row).1.toSql (putValues body row).2.1.toSql
            (putValues body row).2.2.toSql taskId now with
        | error e => simp [Response.details, hupd]
        | ok r => simp [Response.details, hupd]
  · unfold ErrorMapping deleteTask
    cases h : db.delete taskId with
    | error e => simp [Response.details]
    | ok r =>
      obtain ⟨db', n⟩ := r
      by_cases hn : n = 0 <;> simp [Response.details, hn]
  · unfold ErrorMapping patchComplete
    cases h : db.updateStatus "completed" taskId now with
    | error e => simp [Response.details]
    | ok r =>
      obtain ⟨db', n⟩ := r
      by_cases hn : n = 0 <;> simp [Response.details, hn]
  · unfold ErrorMapping patchPending
    cases h : db.updateStatus "pending" taskId now with
    | error e => simp [Response.details]
    | ok r =>
      obtain ⟨db', n⟩ := r
      by_cases hn : n = 0 <;> simp [Response.details, hn]

/-- C5.  Delete then GetById: whenever `DELETE /tasks/:id` answers 200, a
`GET /tasks/:id` on the same id issued on the resulting store answers 404 with
`{ error: 'Task not found' }`. -/
theorem C5_delete_then_get_is_not_found (now now' : Nat) (taskId : Seg) (b b' : ReqBody)
    (db : Db)
    (h : (handle now ⟨.DELETE, [.word "tasks", taskId], .parsed b⟩ db).2.status = 200) :
    (handle now' ⟨.GET, [.word "tasks", taskId], .parsed b'⟩
      (handle now ⟨.DELETE, [.word "tasks", taskId], .parsed b⟩ db).1).2 =
      ⟨404, .error "Task not found" none⟩ := by
  rw [handle_getTaskById]
  rw [handle_deleteTask] at h ⊢
  unfold deleteTask at h ⊢
  cases hdel : db.delete taskId with
  | error e => simp [hdel] at h
  | ok r =>
    obtain ⟨db', n⟩ := r
    obtain ⟨hc, _, hdb⟩ := delete_ok hdel
    have hget : (getTaskById taskId db').2 = ⟨404, .error "Task not found" none⟩ := by
      subst hdb
      unfold getTaskById Db.selectById
      simp only [hc, filter_whereId_filter_not]
    simp only
    split_ifs <;> exact hget

/-- C5 at a store with one task. -/
theorem C5_delete_then_get_is_not_found_witness :
    (handle 7 ⟨.DELETE, [.word "tasks", .num 1], .parsed ⟨.undefined, .undefined, .undefined⟩⟩
      ⟨[⟨1, "a", none, some "pending", 5, 5⟩], 2, none⟩).2.status = 200 ∧
    (handle 8 ⟨.GET, [.word "tasks", .num 1], .parsed ⟨.undefined, .undefined, .undefined⟩⟩
      (handle 7 ⟨.DELETE, [.word "tasks", .num 1], .parsed ⟨.undefined, .undefined, .undefined⟩⟩
        ⟨[⟨1, "a", none, some "pending", 5, 5⟩], 2, none⟩).1).2 =
      ⟨404, .error "Task not found" none⟩ :=
  ⟨by decide, C5_delete_then_get_is_not_found 7 8 (.num 1) _ _ _ (by decide)⟩

/-- C6.  SetStatus then GetById: whenever `PATCH /tasks/:id/complete` answers 200, a
`GET /tasks/:id` on the resulting store answers 200 with a task whose status is
`completed`; and whenever `PATCH /tasks/:id/pending` answers 200, the task returned has
status `pending`.  The status the task had before plays no part. -/
theorem C6_set_status_then_get (now now' : Nat) (taskId : Seg) (b b' : ReqBody) (db : Db) :
    ((handle now ⟨.PATCH, [.word "tasks", taskId, .word "complete"], .parsed b⟩ db).2.status = 200 →
      ∃ row, (handle now' ⟨.GET, [.word "tasks", taskId], .parsed b'⟩
          (handle now ⟨.PATCH, [.word "tasks", taskId, .word "complete"], .parsed b⟩ db).1).2 =
          ⟨200, .task "Task fetched successfully" row⟩ ∧ row.status = some "completed") ∧
    ((handle now ⟨.PATCH, [.word "tasks", taskId, .word "pending"], .parsed b⟩ db).2.status = 200 →
      ∃ row, (handle now' ⟨.GET, [.word "tasks", taskId], .parsed b'⟩
          (handle now ⟨.PATCH, [.word "tasks", taskId, .word "pending"], .parsed b⟩ db).1).2 =
          ⟨200, .task "Task fetched successfully" row⟩ ∧ row.status = some "pending") := by
  simp only [handle_getTaskById, handle_patchComplete, handle_patchPending]
  constructor
  · intro h
    unfold patchComplete at h ⊢
    cases hupd : db.updateStatus "completed" taskId now with
    | error e => simp [hupd] at h
    | ok r =>
      obtain ⟨db', n⟩ := r
      simp only [hupd] at h ⊢
      split_ifs at h ⊢ with hn
      · simp at h
      · exact patch_fetch hupd hn
  · intro h
    unfold patchPending at h ⊢
    cases hupd : db.updateStatus "pending" taskId now with
    | error e => simp [hupd] at h
    | ok r =>
      obtain ⟨db', n⟩ := r
      simp only [hupd] at h ⊢
      split_ifs at h ⊢ with hn
      · simp at h
      · exact patch_fetch hupd hn

/-- C6 at two one-task stores: a pending task marked completed, a completed task marked
pending. -/
theorem C6_set_status_then_get_witness :
    ((handle 7 ⟨.PATCH, [.word "tasks", .num 1, .word "complete"],
        .parsed ⟨.undefined, .undefined, .undefined⟩⟩
        ⟨[⟨1, "a", none, some "pending", 5, 5⟩], 2, none⟩).2.status = 200 ∧
      ∃ row, (handle 8 ⟨.GET, [.word "tasks", .num 1], .parsed ⟨.undefined, .undefined, .undefined⟩⟩
          (handle 7 ⟨.PATCH, [.word "tasks", .num 1, .word "complete"],
            .parsed ⟨.undefined, .undefined, .undefined⟩⟩
            ⟨[⟨1, "a", none, some "pending", 5, 5⟩], 2, none⟩).1).2 =
          ⟨200, .task "Task fetched successfully" row⟩ ∧ row.status = some "completed") ∧
    ((handle 7 ⟨.PATCH, [.word "tasks", .num 1, .word "pending"],
        .parsed ⟨.undefined, .undefined, .undefined⟩⟩
        ⟨[⟨1, "a", none, some "completed", 5, 6⟩], 2, none⟩).2.status = 200 ∧
      ∃ row, (handle 8 ⟨.GET, [.word "tasks", .num 1], .parsed ⟨.undefined, .undefined, .undefined⟩⟩
          (handle 7 ⟨.PATCH, [.word "tasks", .num 1, .word "pending"],
            .parsed ⟨.undefined, .undefined, .undefined⟩⟩
            ⟨[⟨1, "a", none, some "completed", 5, 6⟩], 2, none⟩).1).2 =
          ⟨200, .task "Task fetched successfully" row⟩ ∧ row.status = some "pending") :=
  ⟨⟨by decide, (C6_set_status_then_get 7 8 (.num 1) _ _ _).1 (by decide)⟩,
   ⟨by decide, (C6_set_status_then_get 7 8 (.num 1) _ _ _).2 (by decide)⟩⟩

/-- C7.  List order: on every store whose connection works, `GET /tasks` answers 200
with `data` a rearrangement of the stored tasks in which created_at never increases from
one entry to the next; so whenever an entry A of `data` was created before an entry B
(`A.created_at < B.created_at`), B stands before A. -/
theorem C7_list_newest_first (now : Nat) (b : ReqBody) (db : Db)
    (hconn : db.connError = none) :
    ∃ data, (handle now ⟨.GET, [.word "tasks"], .parsed b⟩ db).2 =
        ⟨200, .tasks "Tasks fetched successfully" data⟩ ∧
      data.Perm db.tasks ∧
      data.Pairwise (fun x y => y.created_at ≤ x.created_at) ∧
      ∀ (i j : Nat) (hi : i < data.length) (hj : j < data.length),
        data[i].created_at < data[j].created_at → j < i := by
  refine ⟨orderByCreatedAtDesc db.tasks, ?_, orderByCreatedAtDesc_perm _,
    orderByCreatedAtDesc_pairwise _, ?_⟩
  · rw [handle_getTasks]
    unfold getTasks Db.selectAll
    rw [hconn]
  · intro i j hi hj hlt
    by_contra hji
    rcases Nat.lt_or_ge i j with hij | hij
    · have := List.pairwise_iff_getElem.mp (orderByCreatedAtDesc_pairwise db.tasks)
        i j hi hj hij
      omega
    · have hij' : i = j := by omega
      subst hij'
      omega

/-- C7 at a store holding an older task before a newer one. -/
theorem C7_list_newest_first_witness :
    (⟨[⟨1, "a", none, some "pending", 5, 5⟩, ⟨2, "b", none, some "pending", 9, 9⟩],
        3, none⟩ : Db).connError = none ∧
    ∃ data, (handle 10 ⟨.GET, [.word "tasks"], .parsed ⟨.undefined, .undefined, .undefined⟩⟩
        ⟨[⟨1, "a", none, some "pending", 5, 5⟩, ⟨2, "b", none, some "pending", 9, 9⟩],
          3, none⟩).2 = ⟨200, .tasks "Tasks fetched successfully" data⟩ ∧
      data.Perm [⟨1, "a", none, some "pending", 5, 5⟩, ⟨2, "b", none, some "pending", 9, 9⟩] ∧
      data.Pairwise (fun x y => y.created_at ≤ x.created_at) ∧
      ∀ (i j : Nat) (hi : i < data.length) (hj : j < data.length),
        data[i].created_at < data[j].created_at → j < i :=
  ⟨rfl, C7_list_newest_first 10 ⟨.undefined, .undefined, .undefined⟩
    ⟨[⟨1, "a", none, some "pending", 5, 5⟩, ⟨2, "b", none, some "pending", 9, 9⟩], 3, none⟩
    rfl⟩

/-- C8.  Create defaults: for every string title, a `POST /tasks` whose body has the title
and neither description nor status and that answers 201 answers with `data.title` the
title as sent, `data.description` null and `data.status` `pending`. -/
theorem C8_create_defaults (now : Nat) (title : String) (db : Db)
    (h : (handle now ⟨.POST, [.word "tasks"], .parsed ⟨.str title, .undefined, .undefined⟩⟩
      db).2.status = 201) :
    ∃ insertId, (handle now ⟨.POST, [.word "tasks"],
      .parsed ⟨.str title, .undefined, .undefined⟩⟩ db).2 =
      ⟨201, .created "Task created successfully" insertId (.str title) .null
        (.str "pending")⟩ := by
  rw [handle_postTasks] at h ⊢
  have hv : postValues ⟨.str title, .undefined, .undefined⟩ =
      .ok (.str (trim title), .null, .str "pending") := rfl
  simp only [hv] at h ⊢
  unfold postTasksQuery at h ⊢
  cases hins : db.insert (JVal.str (trim title)).toSql JVal.null.toSql
      (JVal.str "pending").toSql now with
  | error e => simp [hins] at h
  | ok r =>
    obtain ⟨db', insertId⟩ := r
    exact ⟨insertId, rfl⟩

/-- C8 at `{"title":"Buy milk"}` on the empty table. -/
theorem C8_create_defaults_witness :
    (handle 5 ⟨.POST, [.word "tasks"], .parsed ⟨.str "Buy milk", .undefined, .undefined⟩⟩
      Db.empty).2.status = 201 ∧
    ∃ insertId, (handle 5 ⟨.POST, [.word "tasks"],
      .parsed ⟨.str "Buy milk", .undefined, .undefined⟩⟩ Db.empty).2 =
      ⟨201, .created "Task created successfully" insertId (.str "Buy milk") .null
        (.str "pending")⟩ :=
  ⟨by decide, C8_create_defaults 5 "Buy milk" Db.empty (by decide)⟩

/-- C9 (the claim fails).  `POST /tasks` with the status `[null]` on the empty table:
the array is truthy, so it is bound as it is, the driver writes it as `NULL`, the
nullable column stores `NULL`, and the answer is 201.  The store reached holds a task
whose status is neither `pending` nor `completed`. -/
theorem C9_array_status_is_stored_as_null :
    handle 5 ⟨.POST, [.word "tasks"], .parsed ⟨.str "a", .undefined, .arr [.null]⟩⟩
        Db.empty =
      (⟨[⟨1, "a", none, none, 5, 5⟩], 2, none⟩,
       ⟨201, .created "Task created successfully" 1 (.str "a") .null (.arr [.null])⟩) ∧
    ¬ ∀ db, Reachable db →
        ∀ t ∈ db.tasks, t.status = some "pending" ∨ t.status = some "completed" := by
  refine ⟨rfl, ?_⟩
  intro h
  have hreach : Reachable (handle 5 ⟨.POST, [.word "tasks"],
      .parsed ⟨.str "a", .undefined, .arr [.null]⟩⟩ Db.empty).1 :=
    Reachable.request 5 _ Reachable.empty
  have := h _ hreach ⟨1, "a", none, none, 5, 5⟩ (List.mem_singleton.mpr rfl)
  simp at this

/-- C9 (amended).  In every store reachable from the empty table by any sequence of
requests (Create, Update, Delete and SetStatus among them) with arbitrary bodies and ids,
at any clock readings and with the connection breaking or recovering in between, every
stored task has status `NULL`, `pending` or `completed`: the handlers bind whatever the
body carries, and the `ENUM('pending', 'completed')` column, nullable and checked by the
engine in strict SQL mode, admits nothing else. -/
theorem C9_status_null_or_enumerated (db : Db) (h : Reachable db) :
    ∀ t ∈ db.tasks,
      t.status = none ∨ t.status = some "pending" ∨ t.status = some "completed" := by
  induction h with
  | empty => intro t ht; simp [Db.empty] at ht
  | request now req _ ih => exact statusNullOrEnum_handle now req _ ih
  | connection e _ ih => exact ih

/-- C9 (amended) at the store left by one `POST /tasks` on the empty table. -/
theorem C9_status_null_or_enumerated_witness :
    Reachable (handle 5 ⟨.POST, [.word "tasks"],
        .parsed ⟨.str "Buy milk", .undefined, .undefined⟩⟩ Db.empty).1 ∧
    ((⟨1, "Buy milk", none, some "pending", 5, 5⟩ : Task).status = none ∨
     (⟨1, "Buy milk", none, some "pending", 5, 5⟩ : Task).status = some "pending" ∨
     (⟨1, "Buy milk", none, some "pending", 5, 5⟩ : Task).status = some "completed") :=
  ⟨Reachable.request 5 _ Reachable.empty,
   C9_status_null_or_enumerated
     (handle 5 ⟨.POST, [.word "tasks"],
       .parsed ⟨.str "Buy milk", .undefined, .undefined⟩⟩ Db.empty).1
     (Reachable.request 5 _ Reachable.empty)
     ⟨1, "Buy milk", none, some "pending", 5, 5⟩ (by decide)⟩

/-- C10 (the claim fails).  A task that is already completed, last updated at clock
reading 10: `PATCH /tasks/1/complete` at clock reading 20 answers 200 and leaves the row
as it was, `updated_at` still 10. -/
theorem C10_completed_task_keeps_updated_at :
    handle 20 ⟨.PATCH, [.word "tasks", .num 1, .word "complete"],
        .parsed ⟨.undefined, .undefined, .undefined⟩⟩
        ⟨[⟨1, "a", none, some "completed", 10, 10⟩], 2, none⟩ =
      (⟨[⟨1, "a", none, some "completed", 10, 10⟩], 2, none⟩,
       ⟨200, .message "Task marked as completed"⟩) := rfl

/-- C10 (amended).  Whenever `PATCH /tasks/:id/complete` answers 200, every row of that id
has status `completed` afterwards, and its `updated_at` is the clock reading of the call if
its status was not `completed` before and is unchanged if it was; the other rows, and the
other columns, are as before. -/
theorem C10_updated_at_after_complete (now : Nat) (taskId : Seg) (b : ReqBody) (db : Db)
    (h : (handle now ⟨.PATCH, [.word "tasks", taskId, .word "complete"], .parsed b⟩
      db).2.status = 200) :
    (handle now ⟨.PATCH, [.word "tasks", taskId, .word "complete"], .parsed b⟩ db).1.tasks =
      db.tasks.map fun r =>
        if whereId taskId r then
          { r with status := some "completed",
                   updated_at := if r.status = some "completed" then r.updated_at else now }
        else r := by
  rw [handle_patchComplete] at h ⊢
  unfold patchComplete at h ⊢
  cases hupd : db.updateStatus "completed" taskId now with
  | error e => simp [hupd] at h
  | ok r =>
    obtain ⟨db', n⟩ := r
    obtain ⟨_, _, hdb⟩ := updateStatus_ok hupd
    have htasks : db'.tasks = db.tasks.map fun r =>
        if whereId taskId r then
          { r with status := some "completed",
                   updated_at := if r.status = some "completed" then r.updated_at else now }
        else r := by
      subst hdb
      simp only
      apply List.map_congr_left
      intro r _
      split_ifs with hw hs
      · unfold Task.assign
        rw [if_pos ⟨rfl, rfl, hs⟩]
        cases r
        simp only at hs
        simp [hs]
      · unfold Task.assign
        rw [if_neg (fun hc => hs hc.2.2)]
      · rfl
    simp only
    split_ifs <;> exact htasks

/-- C10 (amended) at a pending task last updated at 10 and marked completed at 20. -/
theorem C10_updated_at_after_complete_witness :
    (handle 20 ⟨.PATCH, [.word "tasks", .num 1, .word "complete"],
        .parsed ⟨.undefined, .undefined, .undefined⟩⟩
        ⟨[⟨1, "a", none, some "pending", 10, 10⟩], 2, none⟩).2.status = 200 ∧
    (handle 20 ⟨.PATCH, [.word "tasks", .num 1, .word "complete"],
        .parsed ⟨.undefined, .undefined, .undefined⟩⟩
        ⟨[⟨1, "a", none, some "pending", 10, 10⟩], 2, none⟩).1.tasks =
      [⟨1, "a", none, some "completed", 10, 20⟩] :=
  ⟨by decide,
   (C10_updated_at_after_complete 20 (.num 1) ⟨.undefined, .undefined, .undefined⟩
      ⟨[⟨1, "a", none, some "pending", 10, 10⟩], 2, none⟩ (by decide)).trans (by decide)⟩

end TasksServer
